import Mathlib

/-!
Verification of the data-to-visual mapping layer of the mixing-dashboard
repository (files `app.py` and `Standardinterface.py`, which contain the
same core logic).  The embedding covers:

* the curve model of `get_mixing_graph` (`np.linspace(0, 100, 100)`,
  `y = 0.05 * (x - 50)**2 + 10`, `current_y = 0.05 * (current_ratio - 50)**2 + 10`),
  modelled in exact rational arithmetic;
* the KPI metric formulas (`1.2 + np.sin(time_step)*0.2`, `98.5`,
  `12.5 + fluid_ratio/100`);
* the mesh/field part of `get_velocity_model`: the shallow copy, the guarded
  fallback velocity generation, the pulsed display field, and the z-plane
  slice, with arrays held in an explicit store so that aliasing and
  mutation can be stated;
* `load_mesh` with its fallback cylinder.
-/

namespace MixingTwin

/-- Embeds `current_y = 0.05 * (current_ratio - 50)**2 + 10` from
`get_mixing_graph` (app.py line 142, Standardinterface.py line 127),
the predicted mixing time for a given mix percentage. -/
def predict (r : ℚ) : ℚ := 0.05 * (r - 50) ^ 2 + 10

/-- Embeds `np.linspace(a, b, num)`: `num` evenly spaced samples, step
`(b - a) / (num - 1)`, sample `k` equal to `a + step * k`; with exact
rational arithmetic the final sample is exactly `b`, matching numpy
forcing the endpoint. -/
def linspace (a b : ℚ) (num : ℕ) : List ℚ :=
  (List.range num).map (fun (k : ℕ) => a + (b - a) / ((num : ℚ) - 1) * (k : ℚ))

/-- Embeds the background-curve data of `get_mixing_graph`
(app.py lines 140-141): `x = np.linspace(0, 100, 100)` paired with
`y = 0.05 * (x - 50)**2 + 10` evaluated elementwise. -/
def curve (num : ℕ) : List (ℚ × ℚ) :=
  (linspace 0 100 num).map (fun r => (r, 0.05 * (r - 50) ^ 2 + 10))

/-- Embeds the KPI metric `1.2 + np.sin(time_step)*0.2`
(app.py line 240, Standardinterface.py line 161). -/
noncomputable def avg_velocity (t : ℝ) : ℝ := 1.2 + Real.sin t * 0.2

/-- Embeds the KPI metric literal `"98.5%"` (app.py line 241,
Standardinterface.py line 162). -/
def homogeneity : ℚ := 98.5

/-- Embeds the KPI metric `12.5 + fluid_ratio/100` (app.py line 242,
Standardinterface.py line 163); Python `/` is true division. -/
def power (r : ℚ) : ℚ := 12.5 + r / 100

/-- A per-point 3-vector field value (rows of `np.random.rand(n, 3)` and of
the derived display array). -/
abbrev Vec3 := ℝ × ℝ × ℝ

/-- A named per-point data array of a mesh. -/
abbrev FieldArray := List Vec3

/-- The heap of allocated numpy arrays.  Meshes refer to arrays by index
into this store, so that aliasing between a mesh and its shallow copy, and
the absence of in-place mutation, can be stated.  Allocating a new array
appends to the store; existing indices are never written. -/
abbrev Store := List FieldArray

/-- Embeds the pyvista `DataSet` as used by the app: point geometry (only
the z-coordinates matter to any claim, since the slice normal is the
z-axis and the field logic never reads coordinates), a cell count, and the
named point-data arrays as references into the `Store`. -/
structure Mesh where
  zs : List ℚ
  nCells : ℕ
  fields : List (String × ℕ)

/-- Embeds `grid.n_points`. -/
def Mesh.nPoints (m : Mesh) : ℕ := m.zs.length

/-- Embeds `"name" in grid.array_names`. -/
def Mesh.hasField (m : Mesh) (name : String) : Bool :=
  m.fields.any (fun f => f.1 == name)

/-- Embeds `grid.copy(deep=False)` (app.py line 95, Standardinterface.py
line 82): the copy gets its own point-data container whose entries
reference the same underlying arrays, so in this embedding it is the same
value; attaching an array to the copy afterwards builds a new `Mesh` value
and leaves the original untouched, exactly as VTK `ShallowCopy` does. -/
def Mesh.shallowCopy (m : Mesh) : Mesh := m

/-- Embeds `grid["name"] = array`: the (name, array-reference) pair is
prepended, and `lookupField` takes the first match, so a reassignment
shadows an older entry without touching the old array. -/
def Mesh.withField (m : Mesh) (name : String) (id : ℕ) : Mesh :=
  { m with fields := (name, id) :: m.fields }

/-- Reference of the array registered under `name`, if any. -/
def lookupField (m : Mesh) (name : String) : Option ℕ :=
  (m.fields.find? (fun f => f.1 == name)).map Prod.snd

/-- Embeds reading `grid["name"]`: dereference the registered array in the
store. -/
def readField (st : Store) (m : Mesh) (name : String) : Option FieldArray :=
  (lookupField m name).bind (fun i => st[i]?)

/-- State threaded through a `get_velocity_model` call: the array store
and the position of the global numpy random stream. -/
structure SynthState where
  store : Store
  rng : ℕ

/-- Embeds `np.random.rand(n, 3)` drawn at position `c` of the global
random stream `gen`: `n` fresh rows, advancing the stream by `n`. -/
def randRows (gen : ℕ → Vec3) (c n : ℕ) : FieldArray :=
  (List.range n).map (fun i => gen (c + i))

/-- Embeds `pulse = np.abs(np.sin(t)) + 0.5` (app.py line 94,
Standardinterface.py line 78). -/
noncomputable def pulse (t : ℝ) : ℝ := |Real.sin t| + 0.5

/-- Componentwise scalar multiply of one row, embedding numpy
`array * pulse`. -/
def smul3 (c : ℝ) (v : Vec3) : Vec3 := (v.1 * c, v.2.1 * c, v.2.2 * c)

/-- Embeds the field-synthesis part of `get_velocity_model` (app.py lines
93-99, Standardinterface.py lines 76-87): shallow-copy the cached grid; if
the copy carries no `"velocity"` array, allocate a fresh random one; then
allocate the `"display_vel"` array equal to the velocity array scaled by
`pulse t`.  Array allocation appends to the store and the new reference is
recorded on the copy only. -/
noncomputable def synthesize (gen : ℕ → Vec3) (m : Mesh) (t : ℝ) (s : SynthState) :
    Mesh × SynthState :=
  if (m.shallowCopy).hasField "velocity" then
    let dg := m.shallowCopy
    let dv := ((readField s.store dg "velocity").getD []).map (smul3 (pulse t))
    (dg.withField "display_vel" s.store.length, ⟨s.store ++ [dv], s.rng⟩)
  else
    let dg := (m.shallowCopy).withField "velocity" s.store.length
    let st1 := s.store ++ [randRows gen s.rng (m.shallowCopy).nPoints]
    let dv := ((readField st1 dg "velocity").getD []).map (smul3 (pulse t))
    (dg.withField "display_vel" st1.length, ⟨st1 ++ [dv], s.rng + (m.shallowCopy).nPoints⟩)

/-- Resolution of the fallback cylinder; pyvista default. -/
def cylinderResolution : ℕ := 100

/-- Fallback cylinder height, from `pv.Cylinder(radius=0.5, height=1.2, ...)`. -/
def cylinderHeight : ℚ := 6 / 5

/-- Fallback cylinder radius, from `pv.Cylinder(radius=0.5, ...)`. -/
def cylinderRadius : ℚ := 1 / 2

/-- Modelled from the spec: the body of `pv.Cylinder` is library code, not
in this repository.  The spec fixes a capped cylinder with radius 0.5 and
height 1.2; the call passes `direction=(0,0,1)` and leaves the library
defaults `center=(0,0,0)`, `resolution=100`, `capping=True`.  The surface
mesh places every point on one of the two rims, i.e. at
z = center_z plus or minus height/2; the cell count is the side quads plus
the two caps.  It carries no data arrays, in particular no `"velocity"`. -/
def fallbackCylinder : Mesh :=
  { zs := List.replicate (2 * cylinderResolution) (cylinderHeight / 2) ++
      List.replicate (2 * cylinderResolution) (-(cylinderHeight / 2))
    nCells := cylinderResolution + 2
    fields := [] }

/-- Embeds `load_mesh` (app.py lines 79-86, Standardinterface.py lines
61-69): the attempted `pv.read` + block extraction is summarized by an
`Option Mesh` (`none` for every failure caught by the bare `except`); on
failure the fallback cylinder is returned instead of an error. -/
def load_mesh (readResult : Option Mesh) : Mesh :=
  match readResult with
  | some grid => grid
  | none => fallbackCylinder

/-- Result of the plane cut, as consumed by the app: whether the cut is
empty, and the names of the arrays it carries. -/
structure SliceResult where
  isEmpty : Bool
  arrayNames : List String

/-- Modelled from the spec: `DataSet.slice` is library code, not in this
repository.  The spec fixes the behaviour used here: the planar
cross-section through the given z-origin is empty exactly when the plane
misses the z-bounds of the mesh (mesh entirely below or entirely above),
and it is returned as an empty result rather than an error; the cut
carries the point-data arrays of the input. -/
def sliceZ (m : Mesh) (originZ : ℚ) : SliceResult :=
  { isEmpty := (m.zs.all fun z => decide (z < originZ)) ||
      (m.zs.all fun z => decide (originZ < z))
    arrayNames := m.fields.map Prod.fst }

/-- The slice-plane normal passed to `display_grid.slice` with normal z
(app.py line 101, Standardinterface.py line 90): the z-axis. -/
def sliceNormal : ℚ × ℚ × ℚ := (0, 0, 1)

/-- The z-component of the slice-plane origin `(0, 0, 0.5)`. -/
def sliceOriginZ : ℚ := 1 / 2

/-- The slice-plane origin passed in `display_grid.slice(...)`. -/
def sliceOrigin : ℚ × ℚ × ℚ := (0, 0, sliceOriginZ)

/-- Smallest z-coordinate of the mesh points. -/
def Mesh.zMin (m : Mesh) : ℚ := (m.zs.min?).getD 0

/-- Largest z-coordinate of the mesh points. -/
def Mesh.zMax (m : Mesh) : ℚ := (m.zs.max?).getD 0

/-- The mesh midplane height: midpoint of the z-bounds. -/
def Mesh.midplaneZ (m : Mesh) : ℚ := (m.zMin + m.zMax) / 2

/-- Random stream used for the concrete counterexample run: row `i` is
`(i, 0, 0)`, so distinct positions give distinct rows. -/
def genIdx : ℕ → Vec3 := fun i => ((i : ℝ), 0, 0)

/-- Initial state of the counterexample run: empty store, stream at 0. -/
def initState : SynthState := ⟨[], 0⟩

/-- First `synthesize` call of the counterexample run, on the fallback
mesh at `t = 0`. -/
noncomputable def callOne : Mesh × SynthState :=
  synthesize genIdx fallbackCylinder 0 initState

/-- Second `synthesize` call, same mesh instance, state left by the first
call. -/
noncomputable def callTwo : Mesh × SynthState :=
  synthesize genIdx fallbackCylinder 0 callOne.2

/-- Concrete mesh owning one field array, for the frame-condition witness. -/
def meshW : Mesh := { zs := [0], nCells := 1, fields := [("velocity", 0)] }

/-- Store for the frame-condition witness: the single array of `meshW`. -/
def arrW : FieldArray := [((1 : ℝ), 2, 3)]

/-- State for the frame-condition witness. -/
def stateW : SynthState := ⟨[arrW], 0⟩

/-- Concrete mesh lying entirely below the plane `z = 2`, for the
empty-slice witness. -/
def meshBelow : Mesh := { zs := [0, 1], nCells := 1, fields := [] }

/-- C6: for every mix percentage in [0, 100] the prediction follows the
parabola `0.05 * (r - 50)^2 + 10`, with minimum value 10 attained at 50,
and `predict 49 = 10.05`. -/
theorem predict_parabola_min (r : ℚ) (h0 : 0 ≤ r) (h1 : r ≤ 100) :
    predict r = 0.05 * (r - 50) ^ 2 + 10 ∧ predict 50 ≤ predict r ∧
    predict 50 = 10 ∧ predict 49 = 10.05 := by
  refine ⟨rfl, ?_, by norm_num [predict], by norm_num [predict]⟩
  unfold predict
  nlinarith [sq_nonneg (r - 50)]

/-- Witness for C6 at the default slider value 49. -/
theorem predict_parabola_min_witness :
    (0 : ℚ) ≤ 49 ∧ (49 : ℚ) ≤ 100 ∧ predict 49 = 10.05 :=
  ⟨by norm_num, by norm_num,
    (predict_parabola_min 49 (by norm_num) (by norm_num)).2.2.2⟩

/-- C9: the prediction curve is symmetric about 50:
`predict (50 - d) = predict (50 + d)` for every `d` in [0, 50]. -/
theorem predict_symmetric (d : ℚ) (h0 : 0 ≤ d) (h1 : d ≤ 50) :
    predict (50 - d) = predict (50 + d) := by
  unfold predict
  ring

/-- Witness for C9 at `d = 7`. -/
theorem predict_symmetric_witness :
    (0 : ℚ) ≤ 7 ∧ (7 : ℚ) ≤ 50 ∧ predict (50 - 7) = predict (50 + 7) :=
  ⟨by norm_num, by norm_num, predict_symmetric 7 (by norm_num) (by norm_num)⟩

/-- Helper: the 100 sample ratios are exactly `k * 100 / 99` for
`k = 0, ..., 99`. -/
theorem linspace_0_100_100_eq :
    linspace 0 100 100 = (List.range 100).map (fun (k : ℕ) => (k : ℚ) * 100 / 99) := by
  unfold linspace
  refine List.map_congr_left (fun k _ => ?_)
  push_cast
  ring

/-- Helper: `curve 100` written as a single map over the sample indices. -/
theorem curve_100_eq :
    curve 100 = (List.range 100).map
      (fun (k : ℕ) => ((k : ℚ) * 100 / 99, predict ((k : ℚ) * 100 / 99))) := by
  unfold curve
  rw [linspace_0_100_100_eq, List.map_map]
  rfl

/-- Helper: every sample of `curve 100` is `(k * 100 / 99, predict (k * 100 / 99))`
for some `k < 100`. -/
theorem curve_100_mem_elim (p : ℚ × ℚ) (h : p ∈ curve 100) :
    ∃ k : ℕ, k < 100 ∧ p.1 = (k : ℚ) * 100 / 99 ∧ p.2 = predict p.1 := by
  rw [curve_100_eq] at h
  obtain ⟨k, hk, rfl⟩ := List.mem_map.mp h
  exact ⟨k, List.mem_range.mp hk, rfl, rfl⟩

/-- Helper: the sample with ratio 0 is on the curve (index `k = 0`). -/
theorem curve_100_mem_zero : ((0 : ℚ), predict 0) ∈ curve 100 := by
  rw [curve_100_eq]
  refine List.mem_map.mpr ⟨0, List.mem_range.mpr (by norm_num), ?_⟩
  norm_num

/-- Helper: the sample with ratio 100 is on the curve (index `k = 99`). -/
theorem curve_100_mem_hundred : ((100 : ℚ), predict 100) ∈ curve 100 := by
  rw [curve_100_eq]
  refine List.mem_map.mpr ⟨99, List.mem_range.mpr (by norm_num), ?_⟩
  norm_num

/-- C5: `curve 100` has exactly 100 samples, contains both endpoints 0 and
100, every sample ratio lies in [0, 100], and every sample time equals
`predict` at its ratio (the two are computed by the same formula). -/
theorem curve_100_matches_predict :
    (curve 100).length = 100 ∧
    (0, predict 0) ∈ curve 100 ∧ (100, predict 100) ∈ curve 100 ∧
    ∀ p ∈ curve 100, 0 ≤ p.1 ∧ p.1 ≤ 100 ∧ p.2 = predict p.1 := by
  refine ⟨by rw [curve_100_eq]; simp, curve_100_mem_zero, curve_100_mem_hundred, ?_⟩
  intro p hp
  obtain ⟨k, hk, h1, h2⟩ := curve_100_mem_elim p hp
  have hk99 : (k : ℚ) ≤ 99 := by exact_mod_cast Nat.lt_succ_iff.mp hk
  have hk0 : (0 : ℚ) ≤ (k : ℚ) := by positivity
  refine ⟨?_, ?_, h2⟩
  · rw [h1]; positivity
  · rw [h1, div_le_iff₀ (by norm_num : (0 : ℚ) < 99)]
    nlinarith

/-- Witness for C5 applied to the concrete first sample `(0, predict 0)`. -/
theorem curve_100_matches_predict_witness :
    0 ≤ ((0 : ℚ), predict 0).1 ∧ ((0 : ℚ), predict 0).1 ≤ 100 ∧
    ((0 : ℚ), predict 0).2 = predict ((0 : ℚ), predict 0).1 :=
  curve_100_matches_predict.2.2.2 (0, predict 0) curve_100_mem_zero

/-- C8: the derived display metrics are the literal formulas
`1.2 + sin t * 0.2`, the constant `98.5`, and `12.5 + r / 100`; at the
default sliders `t = 0.5`, `r = 49` the average velocity is
`1.2 + sin 0.5 * 0.2` and the power draw is exactly `12.99`. -/
theorem kpi_metric_formulas :
    (∀ t : ℝ, avg_velocity t = 1.2 + Real.sin t * 0.2) ∧
    homogeneity = 98.5 ∧
    (∀ q : ℚ, power q = 12.5 + q / 100) ∧
    avg_velocity 0.5 = 1.2 + Real.sin 0.5 * 0.2 ∧
    power 49 = 12.99 := by
  refine ⟨fun t => rfl, rfl, fun q => rfl, rfl, by norm_num [power]⟩

set_option maxRecDepth 8000 in
/-- Helper: no product `k * 100` with `k < 100` equals `99 * n` for an
integer slider value `n` strictly between 0 and 100. -/
theorem no_integer_collision_core :
    ∀ k < 100, ∀ n < 100, 0 < n → k * 100 ≠ 99 * n := by decide

/-- C10: the background sample ratios are exactly `k * 100 / 99` for
`k = 0, ..., 99`; the only integer-valued sample ratios are 0 and 100; so
for every integer slider ratio strictly between 0 and 100 the highlighted
setpoint coincides with no background sample point. -/
theorem curve_samples_miss_integer_setpoints :
    linspace 0 100 100 = (List.range 100).map (fun (k : ℕ) => (k : ℚ) * 100 / 99) ∧
    (∀ p ∈ curve 100, (∃ z : ℤ, p.1 = (z : ℚ)) → p.1 = 0 ∨ p.1 = 100) ∧
    ∀ n : ℕ, 0 < n → n < 100 → ∀ p ∈ curve 100, ((n : ℚ), predict (n : ℚ)) ≠ p := by
  refine ⟨linspace_0_100_100_eq, ?_, ?_⟩
  · intro p hp hz
    obtain ⟨z, hz⟩ := hz
    obtain ⟨k, hk, h1, _h2⟩ := curve_100_mem_elim p hp
    have hz0 : 0 ≤ z := by
      have hq : (0 : ℚ) ≤ (z : ℚ) := by rw [← hz, h1]; positivity
      exact_mod_cast hq
    obtain ⟨m, rfl⟩ := Int.eq_ofNat_of_zero_le hz0
    have hq : (k : ℚ) * 100 = (m : ℚ) * 99 := by
      rw [h1] at hz
      field_simp at hz
      linarith [hz]
    have hnat : k * 100 = m * 99 := by exact_mod_cast hq
    have hdvd : 99 ∣ k * 100 := ⟨m, by omega⟩
    have hco : Nat.Coprime 99 100 := by norm_num
    obtain ⟨j, rfl⟩ := hco.dvd_of_dvd_mul_right hdvd
    have hj : j = 0 ∨ j = 1 := by omega
    rcases hj with rfl | rfl
    · left; rw [h1]; norm_num
    · right; rw [h1]; norm_num
  · intro n hn0 hn1 p hp hEq
    obtain ⟨k, hk, h1, _h2⟩ := curve_100_mem_elim p hp
    have hfst : (n : ℚ) = p.1 := congrArg Prod.fst hEq
    rw [h1] at hfst
    have hq : (n : ℚ) * 99 = (k : ℚ) * 100 := by
      field_simp at hfst
      linarith [hfst]
    have hnat : n * 99 = k * 100 := by exact_mod_cast hq
    exact no_integer_collision_core k hk n hn1 hn0 (by omega)

/-- Witness for C10 at the default slider ratio 49 against the first
background sample. -/
theorem curve_samples_miss_integer_setpoints_witness :
    ((((49 : ℕ)) : ℚ), predict (((49 : ℕ)) : ℚ)) ≠ ((0 : ℚ), predict 0) :=
  curve_samples_miss_integer_setpoints.2.2 49 (by norm_num) (by norm_num)
    (0, predict 0) curve_100_mem_zero

/-- Helper: a store lookup that succeeds still succeeds, with the same
array, after the store is extended on the right (allocation never
rewrites an existing slot). -/
theorem store_get_append (st ext : Store) (i : ℕ) (arr : FieldArray)
    (h : st[i]? = some arr) : (st ++ ext)[i]? = some arr := by
  have hi : i < st.length := by
    rcases Nat.lt_or_ge i st.length with h1 | h1
    · exact h1
    · rw [List.getElem?_eq_none h1] at h; cases h
  rw [List.getElem?_append_left hi]
  exact h

/-- Helper: a field read that succeeds on a mesh is unchanged by
extending the store. -/
theorem readField_append (st ext : Store) (m : Mesh) (name : String)
    (arr : FieldArray) (h : readField st m name = some arr) :
    readField (st ++ ext) m name = some arr := by
  unfold readField at h ⊢
  cases hl : lookupField m name with
  | none => rw [hl] at h; simp at h
  | some i => rw [hl] at h; exact store_get_append st ext i arr h

/-- Helper: `synthesize` only ever appends to the store. -/
theorem synthesize_store_extends (gen : ℕ → Vec3) (m : Mesh) (t : ℝ)
    (s : SynthState) :
    ∃ ext : Store, (synthesize gen m t s).2.store = s.store ++ ext := by
  unfold synthesize
  by_cases h : ((m.shallowCopy).hasField "velocity" = true)
  · rw [if_pos h]
    exact ⟨_, rfl⟩
  · rw [if_neg h]
    exact ⟨_, List.append_assoc _ _ _⟩

/-- Helper: `synthesize` does not change the point geometry of the mesh
it returns. -/
theorem synthesize_zs (gen : ℕ → Vec3) (m : Mesh) (t : ℝ) (s : SynthState) :
    ((synthesize gen m t s).1).zs = m.zs := by
  unfold synthesize
  by_cases h : ((m.shallowCopy).hasField "velocity" = true)
  · rw [if_pos h]; rfl
  · rw [if_neg h]; rfl

/-- Helper: reading the field just attached finds the given reference. -/
theorem readField_withField_hit (st : Store) (m : Mesh) (name : String) (i : ℕ) :
    readField st (m.withField name i) name = st[i]? := by
  unfold readField lookupField Mesh.withField
  rw [List.find?_cons_of_pos _ (by simp)]
  rfl

/-- Helper: reading some other field skips the attached entry. -/
theorem readField_withField_miss (st : Store) (m : Mesh) (name other : String)
    (i : ℕ) (h : (name == other) = false) :
    readField st (m.withField name i) other = readField st m other := by
  unfold readField lookupField Mesh.withField
  rw [List.find?_cons_of_neg _ (by simp [h])]

/-- Helper: row `i` of a random draw is the stream at position `c + i`. -/
theorem randRows_get (gen : ℕ → Vec3) (c n i : ℕ) (h : i < n) :
    (randRows gen c n)[i]? = some (gen (c + i)) := by
  unfold randRows
  rw [List.getElem?_map, List.getElem?_range h]
  rfl

/-- Helper: on a mesh with no `"velocity"` array, one `synthesize` call
generates a fresh velocity array from the current stream position,
derives the display array from exactly that draw, and advances the
stream by the point count. -/
theorem synthesize_fresh (gen : ℕ → Vec3) (m : Mesh) (t : ℝ) (s : SynthState)
    (h : m.hasField "velocity" = false) :
    readField (synthesize gen m t s).2.store (synthesize gen m t s).1 "velocity"
      = some (randRows gen s.rng m.nPoints) ∧
    readField (synthesize gen m t s).2.store (synthesize gen m t s).1 "display_vel"
      = some ((randRows gen s.rng m.nPoints).map (smul3 (pulse t))) ∧
    (synthesize gen m t s).2.rng = s.rng + m.nPoints := by
  have hc : ¬ ((m.shallowCopy).hasField "velocity" = true) := by
    unfold Mesh.shallowCopy
    rw [h]
    exact Bool.false_ne_true
  have hvel : readField (s.store ++ [randRows gen s.rng (m.shallowCopy).nPoints])
      ((m.shallowCopy).withField "velocity" s.store.length) "velocity"
      = some (randRows gen s.rng (m.shallowCopy).nPoints) := by
    rw [readField_withField_hit]
    exact List.getElem?_concat_length _ _
  unfold synthesize
  rw [if_neg hc]
  refine ⟨?_, ?_, rfl⟩
  · rw [readField_withField_miss _ _ _ _ _ (by rfl)]
    rw [readField_withField_hit]
    rw [List.getElem?_append_left (by simp), List.getElem?_concat_length]
    rfl
  · rw [readField_withField_hit]
    rw [List.getElem?_concat_length]
    rw [hvel]
    rfl

/-- Helper: the smallest z-coordinate of the fallback cylinder is minus
half its height. -/
theorem fallback_zMin : fallbackCylinder.zMin = -(cylinderHeight / 2) := by
  have hanti : Std.Antisymm ((· : ℚ) ≤ ·) := ⟨fun h1 h2 => le_antisymm h1 h2⟩
  have h : fallbackCylinder.zs.min? = some (-(cylinderHeight / 2)) := by
    rw [List.min?_eq_some_iff le_refl min_choice (fun a b c => le_min_iff)]
    constructor
    · refine List.mem_append.mpr (Or.inr ?_)
      exact List.mem_replicate.mpr ⟨by norm_num [cylinderResolution], rfl⟩
    · intro b hb
      rcases List.mem_append.mp hb with hb | hb
      · rw [List.eq_of_mem_replicate hb]; norm_num [cylinderHeight]
      · rw [List.eq_of_mem_replicate hb]
  unfold Mesh.zMin
  rw [h]
  rfl

/-- Helper: the largest z-coordinate of the fallback cylinder is half its
height. -/
theorem fallback_zMax : fallbackCylinder.zMax = cylinderHeight / 2 := by
  have hanti : Std.Antisymm ((· : ℚ) ≤ ·) := ⟨fun h1 h2 => le_antisymm h1 h2⟩
  have h : fallbackCylinder.zs.max? = some (cylinderHeight / 2) := by
    rw [List.max?_eq_some_iff le_refl max_choice (fun a b c => max_le_iff)]
    constructor
    · refine List.mem_append.mpr (Or.inl ?_)
      exact List.mem_replicate.mpr ⟨by norm_num [cylinderResolution], rfl⟩
    · intro b hb
      rcases List.mem_append.mp hb with hb | hb
      · rw [List.eq_of_mem_replicate hb]
      · rw [List.eq_of_mem_replicate hb]; norm_num [cylinderHeight]
  unfold Mesh.zMax
  rw [h]
  rfl

/-- Helper: the fallback cylinder has 400 points. -/
theorem fallback_nPoints : fallbackCylinder.nPoints = 400 := by
  show (List.replicate (2 * cylinderResolution) (cylinderHeight / 2) ++
      List.replicate (2 * cylinderResolution) (-(cylinderHeight / 2))).length = 400
  rw [List.length_append, List.length_replicate, List.length_replicate]
  norm_num [cylinderResolution]

/-- C4: `load_mesh` never propagates an error: a successful read is
returned as-is and every failure yields the fixed fallback cylinder,
which has a positive point count and a positive cell count. -/
theorem load_mesh_never_fails :
    (∀ grid : Mesh, load_mesh (some grid) = grid) ∧
    load_mesh none = fallbackCylinder ∧
    0 < fallbackCylinder.nPoints ∧ 0 < fallbackCylinder.nCells := by
    refine ⟨fun grid => rfl, rfl, ?_, ?_⟩
    · rw [fallback_nPoints]; norm_num
    · have h : fallbackCylinder.nCells = cylinderResolution + 2 := rfl
      rw [h]; norm_num [cylinderResolution]

/-- C2: `synthesize` never mutates an array reachable from the input
mesh: any named field of `mesh` that read as `arr` before the call still
reads as `arr` in the store the call returns; in particular attaching
`"velocity"` / `"display_vel"` to the shallow copy leaves the shared base
mesh and its arrays untouched. -/
theorem synthesize_no_mutation (gen : ℕ → Vec3) (m : Mesh) (t : ℝ)
    (s : SynthState) (name : String) (arr : FieldArray)
    (h : readField s.store m name = some arr) :
    readField (synthesize gen m t s).2.store m name = some arr := by
  obtain ⟨ext, hext⟩ := synthesize_store_extends gen m t s
  rw [hext]
  exact readField_append s.store ext m name arr h

/-- Witness for C2: a concrete mesh whose single field array reads the
same before and after the call. -/
theorem synthesize_no_mutation_witness :
    readField stateW.store meshW "velocity" = some arrW ∧
    readField (synthesize genIdx meshW 0 stateW).2.store meshW "velocity" = some arrW :=
  ⟨rfl, synthesize_no_mutation genIdx meshW 0 stateW "velocity" arrW rfl⟩

/-- C1 (amended): on the fallback cylinder, which carries no `"velocity"`
array, every `synthesize` call regenerates the fallback velocity — the
guarded generation tests the fresh shallow copy, which never carries the
field — so two successive calls read draws taken at successive stream
positions (`s.rng` and `s.rng + nPoints`), not one shared field; within
each call the display field is exactly the velocity draw of that call scaled
componentwise by `|sin t| + 0.5`. -/
theorem synthesize_regenerates_velocity (gen : ℕ → Vec3) (t1 t2 : ℝ)
    (s : SynthState) :
    readField (synthesize gen fallbackCylinder t1 s).2.store
        (synthesize gen fallbackCylinder t1 s).1 "velocity"
      = some (randRows gen s.rng fallbackCylinder.nPoints) ∧
    readField (synthesize gen fallbackCylinder t1 s).2.store
        (synthesize gen fallbackCylinder t1 s).1 "display_vel"
      = some ((randRows gen s.rng fallbackCylinder.nPoints).map (smul3 (pulse t1))) ∧
    readField (synthesize gen fallbackCylinder t2
          (synthesize gen fallbackCylinder t1 s).2).2.store
        (synthesize gen fallbackCylinder t2
          (synthesize gen fallbackCylinder t1 s).2).1 "velocity"
      = some (randRows gen (s.rng + fallbackCylinder.nPoints) fallbackCylinder.nPoints) ∧
    readField (synthesize gen fallbackCylinder t2
          (synthesize gen fallbackCylinder t1 s).2).2.store
        (synthesize gen fallbackCylinder t2
          (synthesize gen fallbackCylinder t1 s).2).1 "display_vel"
      = some ((randRows gen (s.rng + fallbackCylinder.nPoints)
          fallbackCylinder.nPoints).map (smul3 (pulse t2))) := by
  obtain ⟨a1, b1, c1⟩ := synthesize_fresh gen fallbackCylinder t1 s rfl
  obtain ⟨a2, b2, _c2⟩ :=
    synthesize_fresh gen fallbackCylinder t2 (synthesize gen fallbackCylinder t1 s).2 rfl
  rw [c1] at a2 b2
  exact ⟨a1, b1, a2, b2⟩

set_option maxRecDepth 100000 in
/-- Counterexample to C1 as stated: with the concrete stream `genIdx`
(row `i` is `(i, 0, 0)`), the velocity field read by the second call on
the same fallback mesh differs from the one read by the first call —
the field is regenerated, not generated once and reused. -/
theorem velocity_not_shared_counterexample :
    readField callOne.2.store callOne.1 "velocity"
      ≠ readField callTwo.2.store callTwo.1 "velocity" := by
  intro heq
  have h1 : readField callOne.2.store callOne.1 "velocity"
      = some (randRows genIdx 0 400) := rfl
  have h2 : readField callTwo.2.store callTwo.1 "velocity"
      = some (randRows genIdx 400 400) := rfl
  rw [h1, h2] at heq
  have hl := Option.some.inj heq
  have h0 : (randRows genIdx 0 400)[0]? = (randRows genIdx 400 400)[0]? := by rw [hl]
  rw [randRows_get genIdx 0 400 0 (by norm_num),
    randRows_get genIdx 400 400 0 (by norm_num)] at h0
  have hv := Option.some.inj h0
  have hfst : ((0 + 0 : ℕ) : ℝ) = ((400 + 0 : ℕ) : ℝ) := congrArg Prod.fst hv
  have hnat : (0 + 0 : ℕ) = (400 + 0 : ℕ) := Nat.cast_injective hfst
  omega

/-- C3 (amended): the slice uses the plane with unit normal the z-axis
and origin `(0, 0, 0.5)`; for the fallback cylinder that plane lies
strictly inside the z-bounds `[-0.6, 0.6]` — so the cut of the
synthesized display mesh is nonempty — but it is not the midplane, which
is `z = 0`. -/
theorem slice_plane_inside_but_off_midplane (gen : ℕ → Vec3) (t : ℝ)
    (s : SynthState) :
    sliceNormal = (0, 0, 1) ∧ sliceOrigin = (0, 0, 1 / 2) ∧
    fallbackCylinder.zMin < sliceOriginZ ∧ sliceOriginZ < fallbackCylinder.zMax ∧
    fallbackCylinder.midplaneZ = 0 ∧
    (sliceZ (synthesize gen fallbackCylinder t s).1 sliceOriginZ).isEmpty = false := by
  refine ⟨rfl, rfl, ?_, ?_, ?_, ?_⟩
  · rw [fallback_zMin]; norm_num [cylinderHeight, sliceOriginZ]
  · rw [fallback_zMax]; norm_num [cylinderHeight, sliceOriginZ]
  · unfold Mesh.midplaneZ
    rw [fallback_zMin, fallback_zMax]
    ring
  · unfold sliceZ
    simp only
    rw [synthesize_zs]
    have hmem : (cylinderHeight / 2) ∈ fallbackCylinder.zs :=
      List.mem_append.mpr (Or.inl
        (List.mem_replicate.mpr ⟨by norm_num [cylinderResolution], rfl⟩))
    have ha : (fallbackCylinder.zs.all fun z => decide (z < sliceOriginZ)) = false :=
      List.all_eq_false.mpr ⟨cylinderHeight / 2, hmem,
        by norm_num [cylinderHeight, sliceOriginZ]⟩
    have hb : (fallbackCylinder.zs.all fun z => decide (sliceOriginZ < z)) = false := by
      refine List.all_eq_false.mpr ⟨-(cylinderHeight / 2), ?_, ?_⟩
      · exact List.mem_append.mpr (Or.inr
          (List.mem_replicate.mpr ⟨by norm_num [cylinderResolution], rfl⟩))
      · norm_num [cylinderHeight, sliceOriginZ]
    rw [ha, hb]
    rfl

/-- Counterexample to C3 as stated: the slice origin is at `z = 0.5`,
but the midplane of the fallback cylinder is `z = 0`, not `z = 0.5`
(the cylinder is centered at the origin). -/
theorem slice_origin_not_midplane_counterexample :
    sliceOriginZ = 1 / 2 ∧ fallbackCylinder.midplaneZ = 0 ∧
    fallbackCylinder.midplaneZ ≠ sliceOriginZ := by
  refine ⟨rfl, ?_, ?_⟩
  · unfold Mesh.midplaneZ
    rw [fallback_zMin, fallback_zMax]
    ring
  · unfold Mesh.midplaneZ
    rw [fallback_zMin, fallback_zMax]
    norm_num [cylinderHeight, sliceOriginZ]

/-- C7: slicing a mesh that lies entirely below or entirely above the
cutting plane returns an empty slice result; `sliceZ` is a total
function, so no error is raised. -/
theorem slice_misses_bounds_empty (m : Mesh) (oz : ℚ)
    (h : (∀ z ∈ m.zs, z < oz) ∨ (∀ z ∈ m.zs, oz < z)) :
    (sliceZ m oz).isEmpty = true := by
  unfold sliceZ
  simp only
  rcases h with h | h
  · have ha : (m.zs.all fun z => decide (z < oz)) = true :=
      List.all_eq_true.mpr (fun z hz => by simpa using h z hz)
    rw [ha, Bool.true_or]
  · have hb : (m.zs.all fun z => decide (oz < z)) = true :=
      List.all_eq_true.mpr (fun z hz => by simpa using h z hz)
    rw [hb, Bool.or_true]

/-- Witness for C7: a concrete mesh entirely below the plane `z = 2`
slices to an empty result. -/
theorem slice_misses_bounds_empty_witness :
    (∀ z ∈ meshBelow.zs, z < 2) ∧ (sliceZ meshBelow 2).isEmpty = true := by
  have h : ∀ z ∈ meshBelow.zs, z < (2 : ℚ) := by
    intro z hz
    have hz01 : z = 0 ∨ z = 1 := by
      have hmem : z ∈ ([0, 1] : List ℚ) := hz
      simpa using hmem
    rcases hz01 with rfl | rfl <;> norm_num
  exact ⟨h, slice_misses_bounds_empty meshBelow 2 (Or.inl h)⟩

end MixingTwin
